import Mathlib

/-!
# Verification of diesel's query builder and dispatch layer

A shallow embedding, in Lean 4, of the core of the `diesel` crate slice:

* `src/diesel/src/pg/query_builder/mod.rs` — the Postgres `QueryBuilder`
  implementation (`push_sql`, `push_identifier`, `push_bind_param`, `finish`);
* `src/diesel/src/query_dsl/load_dsl.rs` — the dispatch layer
  (`load`, `get_result`, `get_results`, `first`, `execute`);
* `src/diesel/src/query_builder/functions.rs` — the statement constructors
  (`insert`, `insert_default_values`, `default_values`).

Strings are embedded as `List Char`; a Rust `QueryResult<T>` becomes
`Except DieselError T`.  External collaborators (the connection) are embedded
as opaque function records, exactly the two entry points the spec names.
-/

/-- The slice of diesel's error enum the dispatch layer distinguishes:
`NotFound` (zero rows where one was required) versus everything the
connection may report, which the layer passes through untouched.  The
`result` module is outside the provided sources, so only the distinction
the dispatch code makes is embedded. -/
inductive DieselError where
  | NotFound : DieselError
  | DatabaseError : List Char → DieselError
deriving DecidableEq, Repr

/-- Rust's `QueryResult<T>` = `Result<T, diesel::result::Error>`. -/
abbrev QueryResult (α : Type) := Except DieselError α

/-- The `PgQueryBuilder` struct: a SQL text accumulator and a bind counter.
`bind_idx` is a `u32` in the source, embedded as a `Nat` whose only
arithmetic — the increment in `push_bind_param` — carries an explicit
`% 2 ^ 32`, so every reachable counter value stays below `2 ^ 32` and the
wrap-around of the machine integer is preserved.  `#[derive(Default)]`
gives `sql = ""`, `bind_idx = 0`. -/
structure PgQueryBuilder where
  sql : List Char
  bind_idx : Nat
deriving DecidableEq, Repr

/-- `PgQueryBuilder::new()`, i.e. `PgQueryBuilder::default()`. -/
def PgQueryBuilder.new : PgQueryBuilder := ⟨[], 0⟩

/-- `fn push_sql(&mut self, sql: &str) { self.sql.push_str(sql); }` -/
def PgQueryBuilder.push_sql (b : PgQueryBuilder) (s : List Char) : PgQueryBuilder :=
  { b with sql := b.sql ++ s }

/-- `identifier.replace('"', "\"\"")`: Rust's `str::replace` with the
single-character pattern `'"'` replaces every occurrence of `"` by `""`. -/
def escapeQuotes : List Char → List Char
  | [] => []
  | c :: cs => if c = '"' then '"' :: '"' :: escapeQuotes cs else c :: escapeQuotes cs

/-- `fn push_identifier(&mut self, identifier: &str) -> QueryResult<()>`:
pushes `"` , the escaped identifier, `"` , and returns `Ok(())`.  The
mutated builder is returned inside the `Except` in place of `&mut self`. -/
def PgQueryBuilder.push_identifier (b : PgQueryBuilder) (identifier : List Char) :
    QueryResult PgQueryBuilder :=
  .ok (((b.push_sql ['"']).push_sql (escapeQuotes identifier)).push_sql ['"'])

/-- `fn push_bind_param(&mut self)`: increments `bind_idx`, then pushes
`format!("${}", self.bind_idx)`.  `bind_idx` is a `u32`, so the increment is
taken modulo `2 ^ 32`: at the `2 ^ 32`-th call a release build wraps the
counter back to `0` (a debug build panics instead of producing output). -/
def PgQueryBuilder.push_bind_param (b : PgQueryBuilder) : PgQueryBuilder :=
  let b' : PgQueryBuilder := { b with bind_idx := (b.bind_idx + 1) % 2 ^ 32 }
  b'.push_sql ('$' :: (Nat.repr b'.bind_idx).data)

/-- `fn finish(self) -> String { self.sql }` -/
def PgQueryBuilder.finish (b : PgQueryBuilder) : List Char :=
  b.sql

/-- Inverse direction of the escaping, used to state the round-trip part of
the identifier contract: collapse every doubled quote back to one quote. -/
def unescapeQuotes : List Char → List Char
  | [] => []
  | '"' :: '"' :: cs => '"' :: unescapeQuotes cs
  | c :: cs => c :: unescapeQuotes cs

/-- The spec's phrasing of the escape step, written independently of the
source: every quote character is doubled, every other character is kept. -/
def specEscape (s : List Char) : List Char :=
  s.flatMap fun c => if c = '"' then ['"', '"'] else [c]

theorem escapeQuotes_eq_specEscape (s : List Char) : escapeQuotes s = specEscape s := by
  induction s with
  | nil => rfl
  | cons c cs ih =>
    by_cases h : c = '"' <;> simp [escapeQuotes, specEscape, h] at ih ⊢ <;>
      simpa [specEscape] using ih

/-- `unescapeQuotes` never treats the head of `c :: escapeQuotes cs` as part of
a doubled quote when `c ≠ '"'`. -/
theorem unescapeQuotes_cons_ne (c : Char) (h : c ≠ '"') (cs : List Char) :
    unescapeQuotes (c :: cs) = c :: unescapeQuotes cs := by
  cases cs with
  | nil => simp [unescapeQuotes]
  | cons d ds =>
    rw [unescapeQuotes.eq_def]
    split
    · simp_all
    · simp_all
    · next heq =>
      obtain ⟨h1, h2⟩ := List.cons.injEq .. ▸ heq
      simp_all

theorem unescape_escape (s : List Char) : unescapeQuotes (escapeQuotes s) = s := by
  induction s with
  | nil => rfl
  | cons c cs ih =>
    by_cases h : c = '"'
    · subst h; simpa [escapeQuotes, unescapeQuotes] using ih
    · rw [escapeQuotes, if_neg h, unescapeQuotes_cons_ne c h, ih]

/-- One call through the `QueryBuilder<Pg>` trait on a `PgQueryBuilder`
(the three mutating operations of the trait). -/
inductive BuilderOp where
  | pushSql (s : List Char) : BuilderOp
  | pushIdentifier (s : List Char) : BuilderOp
  | pushBindParam : BuilderOp
deriving DecidableEq, Repr

/-- Performs one trait call on the builder.  `push_identifier` is the only
fallible call, so the step result lives in `QueryResult`. -/
def applyOp (b : PgQueryBuilder) : BuilderOp → QueryResult PgQueryBuilder
  | .pushSql s => .ok (b.push_sql s)
  | .pushIdentifier s => b.push_identifier s
  | .pushBindParam => .ok b.push_bind_param

/-- Runs a sequence of trait calls left to right, stopping at the first
error (Rust's `?` propagation). -/
def runOps (b : PgQueryBuilder) : List BuilderOp → QueryResult PgQueryBuilder
  | [] => .ok b
  | op :: ops => (applyOp b op).bind fun b' => runOps b' ops

/-- Number of `push_bind_param` calls in a sequence. -/
def countBindParams : List BuilderOp → Nat
  | [] => 0
  | .pushBindParam :: ops => countBindParams ops + 1
  | _ :: ops => countBindParams ops

/-- The bind counter's value after a sequence of trait calls that started
with the counter at `n`: only `push_bind_param` changes it, by the wrapping
`u32` increment. -/
def bindAfter (n : Nat) : List BuilderOp → Nat
  | [] => n
  | .pushSql _ :: ops => bindAfter n ops
  | .pushIdentifier _ :: ops => bindAfter n ops
  | .pushBindParam :: ops => bindAfter ((n + 1) % 2 ^ 32) ops

/-- The text a sequence of trait calls appends to the buffer, given the
bind counter's value when the sequence starts: raw SQL verbatim, quoted
escaped identifiers, and `$N` placeholders numbered from `n + 1` with the
source's `u32` wrap-around at `2 ^ 32`. -/
def emitted (n : Nat) : List BuilderOp → List Char
  | [] => []
  | .pushSql s :: ops => s ++ emitted n ops
  | .pushIdentifier s :: ops => ('"' :: (escapeQuotes s ++ ['"'])) ++ emitted n ops
  | .pushBindParam :: ops =>
    ('$' :: (Nat.repr ((n + 1) % 2 ^ 32)).data) ++ emitted ((n + 1) % 2 ^ 32) ops

theorem runOps_ok (b : PgQueryBuilder) (ops : List BuilderOp) :
    runOps b ops = .ok ⟨b.sql ++ emitted b.bind_idx ops,
                        bindAfter b.bind_idx ops⟩ := by
  induction ops generalizing b with
  | nil => simp [runOps, emitted, bindAfter]
  | cons op ops ih =>
    cases op with
    | pushSql s =>
      simp only [runOps, applyOp, Except.bind, emitted, bindAfter]
      rw [ih]
      simp [PgQueryBuilder.push_sql, List.append_assoc]
    | pushIdentifier s =>
      simp only [runOps, applyOp, PgQueryBuilder.push_identifier, Except.bind,
        emitted, bindAfter]
      rw [ih]
      simp [PgQueryBuilder.push_sql, List.append_assoc]
    | pushBindParam =>
      simp only [runOps, applyOp, Except.bind, emitted, bindAfter]
      rw [PgQueryBuilder.push_bind_param, ih]
      simp [PgQueryBuilder.push_sql, List.append_assoc]

/-- Iterating the wrapping increment from below `2 ^ 32` is addition
modulo `2 ^ 32`. -/
theorem bindAfter_eq_mod (ops : List BuilderOp) :
    ∀ n, n < 2 ^ 32 → bindAfter n ops = (n + countBindParams ops) % 2 ^ 32 := by
  induction ops with
  | nil =>
    intro n hn
    simp only [bindAfter, countBindParams, Nat.add_zero]
    rw [Nat.mod_eq_of_lt hn]
  | cons op ops ih =>
    intro n hn
    cases op with
    | pushSql s => simpa [bindAfter, countBindParams] using ih n hn
    | pushIdentifier s => simpa [bindAfter, countBindParams] using ih n hn
    | pushBindParam =>
      rw [bindAfter, countBindParams, ih ((n + 1) % 2 ^ 32) (Nat.mod_lt _ (by positivity)),
        Nat.mod_add_mod]
      omega

theorem countBindParams_replicate (k : Nat) :
    countBindParams (List.replicate k BuilderOp.pushBindParam) = k := by
  induction k with
  | zero => rfl
  | succ k ih => simp [List.replicate_succ, countBindParams, ih]

/-- The `Connection` capability, exactly the two entry points the core calls
(§6 of the spec): `query_by_index` for row-returning dispatch and
`execute_returning_count` for count-returning dispatch.  The connection is an
external collaborator, so it is embedded as an arbitrary pair of functions. -/
structure Connection (Q U : Type) where
  query_by_index : Q → QueryResult (List U)
  execute_returning_count : Q → QueryResult Nat

/-- `LoadQuery::internal_load`: `conn.query_by_index(self)`. -/
def internal_load {Q U : Type} (q : Q) (conn : Connection Q U) : QueryResult (List U) :=
  conn.query_by_index q

/-- `LoadDsl::load`: `self.internal_load(conn)`. -/
def load {Q U : Type} (q : Q) (conn : Connection Q U) : QueryResult (List U) :=
  internal_load q conn

/-- Modelled from the spec: `first_or_not_found` lives in diesel's `result`
module, which is not among the provided sources.  Per §4.4, `get_result`
"calls `load`, then requires exactly the first element to exist. Fails with
NotFound if the row sequence is empty ... Extra rows beyond the first are
silently ignored", and connection errors are passed through verbatim (§7). -/
def first_or_not_found {U : Type} : QueryResult (List U) → QueryResult U
  | .ok [] => .error .NotFound
  | .ok (x :: _) => .ok x
  | .error e => .error e

/-- `LoadDsl::get_result`: `first_or_not_found(self.load(conn))`. -/
def get_result {Q U : Type} (q : Q) (conn : Connection Q U) : QueryResult U :=
  first_or_not_found (load q conn)

/-- `LoadDsl::get_results`: `self.load(conn)`. -/
def get_results {Q U : Type} (q : Q) (conn : Connection Q U) : QueryResult (List U) :=
  load q conn

/-- Modelled from the spec: `LimitDsl` is not among the provided sources; its
`limit(n)` wraps the query in a limit clause, giving the type `Limit<Self>`
that `first` dispatches to the connection. -/
structure Limit (Q : Type) where
  query : Q
  limit : Nat

/-- Modelled from the spec: `LimitDsl::limit`, imposing a row limit. -/
def LimitDsl.limit {Q : Type} (q : Q) (n : Nat) : Limit Q := ⟨q, n⟩

/-- `FirstDsl::first`: `self.limit(1).get_result(conn)`. -/
def FirstDsl.first {Q U : Type} (q : Q) (conn : Connection (Limit Q) U) : QueryResult U :=
  get_result (LimitDsl.limit q 1) conn

/-- `ExecuteDsl::execute`: `conn.execute_returning_count(&self)`. -/
def ExecuteDsl.execute {Q U : Type} (q : Q) (conn : Connection Q U) : QueryResult Nat :=
  conn.execute_returning_count q

/-- A concrete connection answering every query with a fixed row list and a
fixed affected-row count; used to instantiate theorems at concrete inputs. -/
def constConn {Q U : Type} (rows : List U) (count : Nat) : Connection Q U :=
  ⟨fun _ => .ok rows, fun _ => .ok count⟩

/-- Modelled from the spec: a connection whose backend honours the limit
clause — the base query denotes a fixed row sequence and `LIMIT n` truncates
it to at most `n` rows (§4.4, `first` "imposes a row-limit of 1"). -/
def limitRespectingConn {Q U : Type} (rows : Q → List U) : Connection (Limit Q) U :=
  ⟨fun lq => .ok ((rows lq.query).take lq.limit), fun _ => .ok 0⟩

namespace Diesel

/-- The `Insert` operator marker (unit struct in the source). -/
structure Insert where
deriving DecidableEq, Repr

/-- The `DefaultValues` marker fragment (unit struct, from the
`insert_statement` module). -/
structure DefaultValues where
deriving DecidableEq, Repr

/-- `pub fn default_values() -> DefaultValues { DefaultValues }` -/
def default_values : DefaultValues := {}

/-- Modelled from the spec: `IncompleteInsertStatement` is defined in the
`insert_statement` module, which is not among the provided sources.  Per §3 it
is "a builder holding a partially specified statement (e.g., target table plus
'Insert' or 'DefaultValues' mode) pending `.into(table)`"; `new(records, op)`
stores the record part and the operator mode.  Rust's shared reference `&T`
on the record part erases in the embedding. -/
structure IncompleteInsertStatement (Records Op : Type) where
  records : Records
  operator : Op
deriving DecidableEq, Repr

/-- `IncompleteInsertStatement::new(records, operator)`. -/
def IncompleteInsertStatement.new {R O : Type} (records : R) (op : O) :
    IncompleteInsertStatement R O :=
  ⟨records, op⟩

/-- `pub fn insert<T>(records: &T) -> IncompleteInsertStatement<&T, Insert>`:
`IncompleteInsertStatement::new(records, Insert)`. -/
def insert {R : Type} (records : R) : IncompleteInsertStatement R Insert :=
  IncompleteInsertStatement.new records {}

/-- `pub fn insert_default_values() -> IncompleteInsertStatement<DefaultValues, Insert>`:
`IncompleteInsertStatement::new(DefaultValues, Insert)`. -/
def insert_default_values : IncompleteInsertStatement DefaultValues Insert :=
  IncompleteInsertStatement.new {} {}

/-- Modelled from the spec: the `.into(table)` refinement followed by a Pg
render, per §4.2 — `INSERT INTO` + identifier, then the dialect's
default-values syntax for a `DefaultValues` record part. -/
def renderIntoTable (stmt : IncompleteInsertStatement DefaultValues Insert)
    (table : List Char) : QueryResult (List Char) :=
  match stmt with
  | ⟨_, _⟩ =>
    ((PgQueryBuilder.new.push_sql "INSERT INTO ".data).push_identifier table).map
      fun b => (b.push_sql " DEFAULT VALUES".data).finish

end Diesel

/-- C1: `push_identifier(s)` succeeds and appends exactly one opening quote,
then `s` with every embedded quote character doubled, then one closing quote;
stripping the outer quotes of the appended token and collapsing every doubled
quote yields `s` back. -/
theorem push_identifier_quotes_and_roundtrips (b : PgQueryBuilder) (s : List Char) :
    b.push_identifier s =
      .ok { b with sql := b.sql ++ ('"' :: (specEscape s ++ ['"'])) } ∧
    unescapeQuotes ((('"' :: (specEscape s ++ ['"'])).drop 1).dropLast) = s := by
  refine ⟨?_, ?_⟩
  · simp [PgQueryBuilder.push_identifier, PgQueryBuilder.push_sql,
      escapeQuotes_eq_specEscape]
  · have h1 : (('"' :: (specEscape s ++ ['"'])).drop 1).dropLast = specEscape s := by
      simp
    rw [h1, ← escapeQuotes_eq_specEscape, unescape_escape]

/-- C8: `push_identifier` always returns `Ok` on the Pg builder: its error
branch is unreachable for every builder state and every identifier, including
the empty string and strings consisting entirely of quote characters. -/
theorem push_identifier_always_ok (b : PgQueryBuilder) (s : List Char) :
    ∃ b', b.push_identifier s = .ok b' :=
  ⟨_, rfl⟩

/-- C2 (amended): on a fresh builder `bind_idx` starts at 0; after any
sequence of trait calls it equals the number of `push_bind_param` calls made
modulo `2 ^ 32` — exactly that number as long as it stays below `2 ^ 32`,
the `u32` range; after a prefix containing `N - 1 < 2 ^ 32 - 1` bind calls
the next (`N`-th) `push_bind_param` appends exactly the placeholder `$N` and
sets the counter to `N`; and `push_sql` and `push_identifier` never change
`bind_idx`. -/
theorem bind_param_placeholder_numbering :
    PgQueryBuilder.new.bind_idx = 0 ∧
    (∀ (ops : List BuilderOp) (b' : PgQueryBuilder),
       runOps PgQueryBuilder.new ops = .ok b' →
       b'.bind_idx = countBindParams ops % 2 ^ 32) ∧
    (∀ (ops : List BuilderOp) (b' : PgQueryBuilder),
       runOps PgQueryBuilder.new ops = .ok b' →
       countBindParams ops < 2 ^ 32 →
       b'.bind_idx = countBindParams ops) ∧
    (∀ (ops : List BuilderOp) (b' : PgQueryBuilder),
       runOps PgQueryBuilder.new ops = .ok b' →
       countBindParams ops + 1 < 2 ^ 32 →
       b'.push_bind_param.sql
         = b'.sql ++ '$' :: (Nat.repr (countBindParams ops + 1)).data ∧
       b'.push_bind_param.bind_idx = countBindParams ops + 1) ∧
    (∀ (b : PgQueryBuilder) (s : List Char), (b.push_sql s).bind_idx = b.bind_idx) ∧
    (∀ (b : PgQueryBuilder) (s : List Char) (b' : PgQueryBuilder),
       b.push_identifier s = .ok b' → b'.bind_idx = b.bind_idx) := by
  have hmod : ∀ (ops : List BuilderOp) (b' : PgQueryBuilder),
      runOps PgQueryBuilder.new ops = .ok b' →
      b'.bind_idx = countBindParams ops % 2 ^ 32 := by
    intro ops b' h
    rw [runOps_ok] at h
    simp only [Except.ok.injEq] at h
    subst h
    simpa [PgQueryBuilder.new] using bindAfter_eq_mod ops 0 (by norm_num)
  have hexact : ∀ (ops : List BuilderOp) (b' : PgQueryBuilder),
      runOps PgQueryBuilder.new ops = .ok b' →
      countBindParams ops < 2 ^ 32 →
      b'.bind_idx = countBindParams ops := by
    intro ops b' h hlt
    rw [hmod ops b' h, Nat.mod_eq_of_lt hlt]
  refine ⟨rfl, hmod, hexact, ?_, fun b s => rfl, ?_⟩
  · intro ops b' h hbound
    have hb := hexact ops b' h (by omega)
    have hbound' : countBindParams ops + 1 < 4294967296 := by omega
    refine ⟨?_, ?_⟩
    · simp [PgQueryBuilder.push_bind_param, PgQueryBuilder.push_sql, hb,
        Nat.mod_eq_of_lt hbound']
    · simp [PgQueryBuilder.push_bind_param, PgQueryBuilder.push_sql, hb,
        Nat.mod_eq_of_lt hbound']
  · intro b s b' h
    simp only [PgQueryBuilder.push_identifier, Except.ok.injEq] at h
    subst h
    rfl

/-- C2 as originally stated fails at the `2 ^ 32`-th call: running `2 ^ 32`
`push_bind_param` calls on a fresh builder wraps the `u32` counter back to
`0`, not to the number of calls made — so the unbounded `$N` numbering claim
is false on the code. -/
theorem bind_param_numbering_wraps_at_u32_limit :
    (runOps PgQueryBuilder.new
        (List.replicate (2 ^ 32) BuilderOp.pushBindParam)).map PgQueryBuilder.bind_idx
      = .ok 0 ∧
    countBindParams (List.replicate (2 ^ 32) BuilderOp.pushBindParam) = 2 ^ 32 ∧
    (0 : Nat) ≠ 2 ^ 32 := by
  refine ⟨?_, countBindParams_replicate (2 ^ 32), by norm_num⟩
  rw [runOps_ok]
  simp only [Except.map]
  show Except.ok (bindAfter PgQueryBuilder.new.bind_idx _) = _
  rw [show PgQueryBuilder.new.bind_idx = 0 from rfl,
    bindAfter_eq_mod _ 0 (by norm_num), countBindParams_replicate]
  simp

/-- Concrete run for `bind_param_placeholder_numbering`: bind, raw SQL, bind
on a fresh builder gives counter 2, and the next bind appends `$3`. -/
theorem bind_param_placeholder_numbering_witness :
    runOps PgQueryBuilder.new
        [.pushBindParam, .pushSql " = ".data, .pushBindParam]
      = .ok ⟨"$1 = $2".data, 2⟩ ∧
    (⟨"$1 = $2".data, 2⟩ : PgQueryBuilder).bind_idx
      = countBindParams [.pushBindParam, .pushSql " = ".data, .pushBindParam] ∧
    (⟨"$1 = $2".data, 2⟩ : PgQueryBuilder).push_bind_param.sql
      = "$1 = $2".data ++ '$' :: (Nat.repr
          (countBindParams [.pushBindParam, .pushSql " = ".data, .pushBindParam] + 1)).data :=
  ⟨rfl,
   bind_param_placeholder_numbering.2.2.1
     [.pushBindParam, .pushSql " = ".data, .pushBindParam] ⟨"$1 = $2".data, 2⟩ rfl
     (by norm_num [countBindParams]),
   (bind_param_placeholder_numbering.2.2.2.1
     [.pushBindParam, .pushSql " = ".data, .pushBindParam] ⟨"$1 = $2".data, 2⟩ rfl
     (by norm_num [countBindParams])).1⟩

/-- C10: every trait call only appends (the previous buffer is an unchanged
prefix of the new one); `finish` returns the accumulated buffer exactly; and
a fresh builder's final SQL is the in-order concatenation of everything the
calls appended — empty for the empty sequence. -/
theorem builder_append_only_finish_concat :
    (∀ (b : PgQueryBuilder) (op : BuilderOp) (b' : PgQueryBuilder),
       applyOp b op = .ok b' → ∃ t, b'.sql = b.sql ++ t) ∧
    (∀ (b : PgQueryBuilder), b.finish = b.sql) ∧
    (∀ (ops : List BuilderOp) (b' : PgQueryBuilder),
       runOps PgQueryBuilder.new ops = .ok b' →
       b'.finish = emitted 0 ops) ∧
    emitted 0 [] = [] := by
  refine ⟨?_, fun b => rfl, ?_, rfl⟩
  · intro b op b' h
    cases op with
    | pushSql s =>
      simp only [applyOp, Except.ok.injEq] at h
      subst h
      exact ⟨s, rfl⟩
    | pushIdentifier s =>
      simp only [applyOp, PgQueryBuilder.push_identifier, Except.ok.injEq] at h
      subst h
      exact ⟨'"' :: (escapeQuotes s ++ ['"']), by simp [PgQueryBuilder.push_sql]⟩
    | pushBindParam =>
      simp only [applyOp, Except.ok.injEq] at h
      subst h
      exact ⟨'$' :: (Nat.repr ((b.bind_idx + 1) % 2 ^ 32)).data, rfl⟩
  · intro ops b' h
    rw [runOps_ok] at h
    simp only [Except.ok.injEq] at h
    subst h
    rfl

/-- Concrete run for `builder_append_only_finish_concat`: the finished SQL of
a fresh builder run through raw SQL then a bind placeholder is exactly the
concatenation of the two appended pieces. -/
theorem builder_append_only_finish_concat_witness :
    PgQueryBuilder.finish ⟨"SELECT 1".data, 0⟩ = "SELECT 1".data ∧
    runOps PgQueryBuilder.new [.pushSql "SELECT ".data, .pushBindParam]
      = .ok ⟨"SELECT $1".data, 1⟩ ∧
    (⟨"SELECT $1".data, 1⟩ : PgQueryBuilder).finish
      = emitted 0 [.pushSql "SELECT ".data, .pushBindParam] :=
  ⟨builder_append_only_finish_concat.2.1 ⟨"SELECT 1".data, 0⟩, rfl,
   builder_append_only_finish_concat.2.2.1
     [.pushSql "SELECT ".data, .pushBindParam] ⟨"SELECT $1".data, 1⟩ rfl⟩

/-- C3: `get_result` yields `Err(NotFound)` precisely when the load succeeds
with zero rows; when the load yields one or more rows it yields `Ok` of the
first decoded row, discarding the rows after the first without error. -/
theorem get_result_first_row_or_not_found {Q U : Type} (conn : Connection Q U) (q : Q) :
    (conn.query_by_index q = .ok [] → get_result q conn = .error .NotFound) ∧
    (∀ (x : U) (xs : List U), conn.query_by_index q = .ok (x :: xs) →
       get_result q conn = .ok x) ∧
    (∀ (rows : List U), conn.query_by_index q = .ok rows →
       (get_result q conn = .error .NotFound ↔ rows = [])) := by
  refine ⟨?_, ?_, ?_⟩
  · intro h
    simp [get_result, load, internal_load, first_or_not_found, h]
  · intro x xs h
    simp [get_result, load, internal_load, first_or_not_found, h]
  · intro rows h
    cases rows with
    | nil => simp [get_result, load, internal_load, first_or_not_found, h]
    | cons x xs => simp [get_result, load, internal_load, first_or_not_found, h]

/-- Concrete runs for `get_result_first_row_or_not_found`: two rows give the
first one back, zero rows give `NotFound`. -/
theorem get_result_first_row_or_not_found_witness :
    get_result 0 (@constConn Nat Nat [5, 7] 0) = .ok 5 ∧
    get_result 0 (@constConn Nat Nat [] 0) = .error .NotFound :=
  ⟨(get_result_first_row_or_not_found (@constConn Nat Nat [5, 7] 0) 0).2.1 5 [7] rfl,
   (get_result_first_row_or_not_found (@constConn Nat Nat [] 0) 0).1 rfl⟩

/-- C4: `execute` returns the connection's `execute_returning_count` result
verbatim — no row decoding — and a count of zero stays the success `Ok 0`. -/
theorem execute_returns_count {Q U : Type} (conn : Connection Q U) (q : Q) :
    ExecuteDsl.execute q conn = conn.execute_returning_count q ∧
    (conn.execute_returning_count q = .ok 0 → ExecuteDsl.execute q conn = .ok 0) :=
  ⟨rfl, fun h => h⟩

/-- Concrete run for `execute_returns_count`: a delete matching zero rows
reports `Ok 0`, not an error. -/
theorem execute_returns_count_witness :
    ExecuteDsl.execute 0 (@constConn Nat Nat [] 0) = .ok 0 :=
  (execute_returns_count (@constConn Nat Nat [] 0) 0).2 rfl

/-- C5: `first(conn)` is exactly `limit(1)` followed by `get_result(conn)`;
and on a connection whose backend honours the limit clause, the limited query
returns at most one row, so at most one row is ever decoded. -/
theorem first_eq_limit_one_get_result {Q U : Type} (q : Q) (conn : Connection (Limit Q) U) :
    FirstDsl.first q conn = get_result (LimitDsl.limit q 1) conn ∧
    (∀ (rows : Q → List U), ∃ r,
       (limitRespectingConn rows).query_by_index (LimitDsl.limit q 1) = .ok r ∧
       r.length ≤ 1) := by
  refine ⟨rfl, fun rows => ⟨(rows q).take 1, rfl, ?_⟩⟩
  simp

/-- C6: `get_results` and `load` are extensionally the same operation: the
same success vector and the same error on every query and connection. -/
theorem get_results_eq_load {Q U : Type} (q : Q) (conn : Connection Q U) :
    get_results q conn = load q conn :=
  rfl

/-- C7: `load` returns exactly what the connection's `query_by_index` entry
point returns — through `internal_load`, with no retry, filtering, or partial
result added by the dispatch layer. -/
theorem load_eq_query_by_index {Q U : Type} (q : Q) (conn : Connection Q U) :
    load q conn = conn.query_by_index q ∧
    internal_load q conn = conn.query_by_index q :=
  ⟨rfl, rfl⟩

/-- C9: `insert_default_values()` equals `insert(&default_values())`: both are
incomplete insert statements in `Insert` mode whose record part is the
`DefaultValues` marker, so after the same `.into(table)` refinement they
render identical SQL. -/
theorem insert_default_values_eq_insert_of_default_values :
    Diesel.insert_default_values = Diesel.insert Diesel.default_values ∧
    Diesel.insert_default_values.records = Diesel.default_values ∧
    Diesel.insert_default_values.operator = ({} : Diesel.Insert) ∧
    (∀ (table : List Char),
       Diesel.renderIntoTable Diesel.insert_default_values table
         = Diesel.renderIntoTable (Diesel.insert Diesel.default_values) table) :=
  ⟨rfl, rfl, rfl, fun _ => rfl⟩
